import Mathlib

/-!
Shallow embedding of the JSON parser in `src/json.cpp` (a C++ fork of
udp/json-parser).  The parser runs one tokenizer twice over the input
(`first_pass` = counting pass sizing every node, then the building pass
allocating exact payloads and filling them).  Pointers are modelled as
indices into an allocation-id-addressed heap; machine integers are `Nat`
or `Int` with explicit wrapping where the C code can overflow; the C
`double` payload is modelled with exact rationals (every claim below only
involves values on which the IEEE computation is exact).
-/

namespace JsonCpp

/-- `json::type` from json.hpp (`json_object = 1, ...`); `jnone` models the
zero-initialised state of a freshly `calloc`ed node before its tag is set. -/
inductive JType
  | jnone | jobject | jarray | jinteger | jdouble | jstring | jboolean | jnull
  deriving DecidableEq, Repr

/-- The storage that the union members `u.string.ptr` / `u.array.values` /
`u.object.values` share.  During the counting pass the object code reuses this
pointer slot as a running byte counter for member names
(`(*(char **) &top->u.object.values) += string_length + 1`), hence
`counter`; `alloc` is a genuine pointer to a payload allocation. -/
inductive PtrVal
  | null
  | counter (n : Nat)
  | alloc (id : Nat)
  deriving DecidableEq, Repr

/-- The `_reserved` union: `next_alloc` chain pointer (counting pass /
rollback) or the `object_mem` name-packing cursor (building pass), the
latter modelled as the values-allocation id plus an offset into its
name region. -/
inductive Reserved
  | next (n : Option Nat)
  | objMem (id : Nat) (off : Nat)
  deriving DecidableEq, Repr

/-- One `json_value` node.  The three union `length` fields overlap in the
source, so a single `length` field is shared; `integer` and `dbl` are kept
separate because the code only ever converts explicitly
(`u.dbl = (double) u.integer`) and never re-reads the other member. -/
structure NodeRec where
  parent : Option Nat
  type : JType
  boolean : Bool
  integer : Int
  dbl : Rat
  length : Nat
  ptrField : PtrVal
  reserved : Reserved
  deriving Repr

/-- The all-zero node produced by `json_alloc(..., zero = true)`. -/
def zeroNode : NodeRec :=
  ⟨none, JType.jnone, false, 0, 0, 0, PtrVal.null, Reserved.next none⟩

/-- One `object_entry` slot; `nameOff` is the offset of the name inside the
name region packed after the entry array (`none` = still uninitialised). -/
structure EntryRec where
  nameOff : Option Nat
  name_length : Nat
  value : Option Nat
  deriving DecidableEq, Repr

def emptyEntry : EntryRec := ⟨none, 0, none⟩

/-- Contents of one allocation: a node shell, a string payload, an array
payload (child ids), or an object payload (entry slots plus the packed name
bytes).  Byte / slot cells are `Option` so that reads of memory the building
pass never wrote stay observable. -/
inductive HContent
  | node (v : NodeRec)
  | strBuf (cells : List (Option Nat))
  | arrBuf (slots : List (Option Nat))
  | objBuf (entries : List EntryRec) (names : List (Option Nat))
  deriving Repr

/-- State of one heap address: never granted, live (with the granted size in
bytes), or already released. -/
inductive HSlot
  | unalloc
  | live (size : Nat) (c : HContent)
  | freed
  deriving Repr

/-- `json::settings`: the allocate capability is modelled by an oracle
`allocOk` deciding whether the k-th call to `mem_alloc` succeeds (the default
allocator is the constantly-true oracle). -/
structure JSettings where
  max_memory : Nat
  allow_comments : Bool
  value_extra : Nat
  allocOk : Nat → Bool

def defaultSettings : JSettings := ⟨0, false, 0, fun _ => true⟩

/-- The C `string` char-pointer variable: null, a string payload buffer, or
the name region of an object's values allocation at some offset. -/
inductive StrTarget
  | null
  | sbuf (id : Nat)
  | nbuf (id : Nat) (off : Nat)
  deriving DecidableEq, Repr

/-- Whole machine state: `json_state`, the local variables of `json::parse`,
and the heap reached through the allocation service.  `overrun` records a
write past a payload buffer's capacity; `ubFlag` records an execution the C
program could only perform as undefined behaviour (dereferencing an invalid
pointer, out-of-bounds read past the input, double free). -/
structure PSt where
  input : List Nat
  len : Nat
  maxMemory : Nat
  allowComments : Bool
  valueExtra : Nat
  allocOk : Nat → Bool
  usedMemory : Nat
  nextId : Nat
  allocCalls : Nat
  heap : Nat → HSlot
  freeCalls : Nat
  firstPass : Bool
  ptr : Nat
  curLine : Nat
  curCol : Nat
  flags : Nat
  top : Option Nat
  root : Option Nat
  allocHead : Option Nat
  strTgt : StrTarget
  strLen : Nat
  numDigits : Nat
  numE : Int
  numFraction : Int
  overrun : Bool
  ubFlag : Bool

/-! ### Flags (the bit constants from json.cpp) -/

def flagNext : Nat := 1
def flagReproc : Nat := 2
def flagNeedComma : Nat := 4
def flagSeekValue : Nat := 8
def flagEscaped : Nat := 16
def flagStr : Nat := 32
def flagNeedColon : Nat := 64
def flagDone : Nat := 128
def flagNumNegative : Nat := 256
def flagNumZero : Nat := 512
def flagNumE : Nat := 1024
def flagNumEGotSign : Nat := 2048
def flagNumENegative : Nat := 4096
def flagLineComment : Nat := 8192
def flagBlockComment : Nat := 16384

/-- `flags & m` is nonzero. -/
def hasF (flags m : Nat) : Bool := (flags &&& m) != 0

/-- `flags |= m`. -/
def setF (flags m : Nat) : Nat := flags ||| m

/-- `flags &= ~m`. -/
def clearF (flags m : Nat) : Nat := flags ^^^ (flags &&& m)

/-! ### Small helpers -/

/-- `std::isdigit` restricted to its defined byte range. -/
def isdigit (b : Nat) : Bool := 48 ≤ b && b ≤ 57

/-- `hex_value` from json.cpp; 255 is the 0xFF failure sentinel. -/
def hexValue (b : Nat) : Nat :=
  if 48 ≤ b && b ≤ 57 then b - 48
  else if 97 ≤ b && b ≤ 102 then b - 87
  else if 65 ≤ b && b ≤ 70 then b - 55
  else 255

/-- Two's-complement wrap of an `int64_t` computation. -/
def i64wrap (x : Int) : Int := (x + 2 ^ 63) % 2 ^ 64 - 2 ^ 63

/-! Exact rational arithmetic for the `double` model, written through
`Rat.divInt` (the generic `Rat` operations are irreducible and would block
kernel evaluation; these compute the same rationals). -/

def rAdd (a b : Rat) : Rat :=
  Rat.divInt (a.num * (b.den : Int) + b.num * (a.den : Int)) ((a.den : Int) * (b.den : Int))

def rMul (a b : Rat) : Rat := Rat.divInt (a.num * b.num) ((a.den : Int) * (b.den : Int))

def rDiv (a b : Rat) : Rat := Rat.divInt (a.num * (b.den : Int)) ((a.den : Int) * b.num)

def rNeg (a : Rat) : Rat := Rat.divInt (-a.num) (a.den : Int)

def rOfInt (i : Int) : Rat := Rat.divInt i 1

/-- `pow(10.0, n)` (exact for the ranges exercised here). -/
def rPow10 : Nat → Rat
  | 0 => rOfInt 1
  | n + 1 => rMul (rOfInt 10) (rPow10 n)

/-- `pow(10.0, e)` with a possibly negative exponent. -/
def rZpow10 (e : Int) : Rat :=
  if 0 ≤ e then rPow10 e.toNat else rDiv (rOfInt 1) (rPow10 (-e).toNat)

/-- `state.uint_max = UINT_MAX - 8`. -/
def uintMaxC : Nat := 2 ^ 32 - 9

/-- `state.ulong_max = ULONG_MAX - 8` (LP64). -/
def ulongMaxC : Nat := 2 ^ 64 - 9

/-- Wrapping 64-bit unsigned subtraction `a - b`. -/
def usub64 (a b : Nat) : Nat := (a + 2 ^ 64 - b % 2 ^ 64) % 2 ^ 64

/-- `sizeof(value)` at json.cpp:197 — `value` is a *pointer* there, so the
node-shell request is for 8 bytes (plus `value_extra`). -/
def sizeofValuePtr : Nat := 8

/-- `sizeof(object_entry)` on LP64 (8 + 4 + padding + 8). -/
def sizeofEntry : Nat := 24

/-- Raw input read `*p`; reading at or past `end` is out of bounds. -/
def readRaw (st : PSt) (i : Nat) : Nat × Bool :=
  if h : i < st.input.length then (st.input.get ⟨i, h⟩, false) else (0, true)

/-- The loop-head byte: `b = (state.ptr == end ? 0 : *state.ptr)`. -/
def headByte (st : PSt) : Nat :=
  if st.ptr = st.len then 0 else (readRaw st st.ptr).1

def markUB (st : PSt) : PSt := { st with ubFlag := true }

def markOverrun (st : PSt) : PSt := { st with overrun := true }

/-! ### Heap operations -/

def hGet (st : PSt) (i : Nat) : Option HContent :=
  match st.heap i with
  | HSlot.live _ c => some c
  | _ => none

def hSet (st : PSt) (i : Nat) (c : HContent) : PSt :=
  match st.heap i with
  | HSlot.live sz _ =>
      { st with heap := fun j => if j = i then HSlot.live sz c else st.heap j }
  | _ => markUB st

def getNode (st : PSt) (i : Nat) : Option NodeRec :=
  match hGet st i with
  | some (HContent.node v) => some v
  | _ => none

def setNode (st : PSt) (i : Nat) (v : NodeRec) : PSt := hSet st i (HContent.node v)

/-- One invocation of the `mem_free` capability.  `none` models passing a
null pointer (legal, counted as a call but releasing nothing). -/
def memFree (st : PSt) (p : Option Nat) : PSt :=
  let st := { st with freeCalls := st.freeCalls + 1 }
  match p with
  | none => st
  | some i =>
      match st.heap i with
      | HSlot.live _ _ => { st with heap := fun j => if j = i then HSlot.freed else st.heap j }
      | _ => markUB st

/-- Freeing whatever a `PtrVal` holds; a `counter` value reinterpreted as a
pointer is an invalid free. -/
def memFreePtr (st : PSt) (p : PtrVal) : PSt :=
  match p with
  | PtrVal.null => memFree st none
  | PtrVal.alloc i => memFree st (some i)
  | PtrVal.counter _ => markUB (memFree st none)

/-- `json_alloc`: the overflow guard, then (only when a ceiling is
configured) the quota increment-and-check, then the underlying capability. -/
def jsonAlloc (st : PSt) (size : Nat) (content : HContent) : PSt × Option Nat :=
  if usub64 ulongMaxC st.usedMemory < size then (st, none)
  else
    let st1 := if st.maxMemory ≠ 0
      then { st with usedMemory := (st.usedMemory + size) % 2 ^ 64 } else st
    if st.maxMemory ≠ 0 ∧ st.maxMemory < st1.usedMemory then (st1, none)
    else
      let k := st1.allocCalls
      let st2 := { st1 with allocCalls := k + 1 }
      if st2.allocOk k then
        let id := st2.nextId
        ({ st2 with
            nextId := id + 1
            heap := fun j => if j = id then HSlot.live size content else st2.heap j },
         some id)
      else (st2, none)

/-! ### `new_value` -/

/-- The byte total accumulated in an object's values slot during the
counting pass, read back as `(unsigned long) value->u.object.values`. -/
def ptrAsCount (p : PtrVal) : Nat :=
  match p with
  | PtrVal.null => 0
  | PtrVal.counter n => n
  | PtrVal.alloc _ => 0

/-- `new_value(state, &top, &root, &alloc, type)`.  Returns the updated state
and `false` exactly when the C function returns 0 (allocation failure). -/
def newValue (st : PSt) (ty : JType) : PSt × Bool :=
  if st.firstPass then
    let (st, oid) := jsonAlloc st (sizeofValuePtr + st.valueExtra)
      (HContent.node { zeroNode with type := ty, parent := st.top })
    match oid with
    | none => (st, false)
    | some id =>
        let st := if st.root = none then { st with root := some id } else st
        let st :=
          match st.allocHead with
          | some a =>
              match getNode st a with
              | some av => setNode st a { av with reserved := Reserved.next (some id) }
              | none => markUB st
          | none => st
        ({ st with allocHead := some id, top := some id }, true)
  else
    match st.allocHead with
    | none => (markUB st, false)
    | some vid =>
        match getNode st vid with
        | none => (markUB st, false)
        | some v =>
            let st := { st with top := some vid }
            let (st, nxt) :=
              match v.reserved with
              | Reserved.next n => (st, n)
              | Reserved.objMem _ _ => (markUB st, none)
            let st := { st with allocHead := nxt }
            let st := if st.root = none then { st with root := some vid } else st
            match v.type with
            | JType.jarray =>
                if v.length = 0 then (st, true)
                else
                  let (st, oid) := jsonAlloc st (v.length * 8)
                    (HContent.arrBuf (List.replicate v.length none))
                  match oid with
                  | none => (setNode st vid { v with ptrField := PtrVal.null }, false)
                  | some bid =>
                      (setNode st vid { v with ptrField := PtrVal.alloc bid, length := 0 }, true)
            | JType.jobject =>
                if v.length = 0 then (st, true)
                else
                  let nameBytes := ptrAsCount v.ptrField
                  let (st, oid) := jsonAlloc st (sizeofEntry * v.length + nameBytes)
                    (HContent.objBuf (List.replicate v.length emptyEntry)
                      (List.replicate nameBytes none))
                  match oid with
                  | none => (setNode st vid { v with ptrField := PtrVal.null }, false)
                  | some bid =>
                      (setNode st vid
                        { v with ptrField := PtrVal.alloc bid,
                                 reserved := Reserved.objMem bid 0, length := 0 }, true)
            | JType.jstring =>
                let (st, oid) := jsonAlloc st (v.length + 1)
                  (HContent.strBuf (List.replicate (v.length + 1) none))
                match oid with
                | none => (setNode st vid { v with ptrField := PtrVal.null }, false)
                | some bid =>
                    (setNode st vid { v with ptrField := PtrVal.alloc bid, length := 0 }, true)
            | _ => (st, true)

end JsonCpp

namespace JsonCpp

/-! ### Errors

Structured form of the `sprintf` diagnostics: each constructor is one
format string in json.cpp, carrying the `LINE_AND_COL` values (and the
offending byte where the format prints `%c`).  `allocFailure` is the one
message written without a position.  `fuelExhausted` is an artifact of the
fuel-based loop and never occurs for the generous fuel used by `parse`. -/
inductive PErr
  | unexpectedEofInString (line col : Nat)
  | invalidCharValue (line col b : Nat)
  | eofInBlockComment (line col : Nat)
  | commentNotAllowedHere (line col : Nat)
  | eofUnexpected (line col : Nat)
  | unexpectedInCommentOpen (line col b : Nat)
  | trailingGarbage (line col b : Nat)
  | unexpectedRBracket (line col : Nat)
  | expectedCommaBefore (line col b : Nat)
  | expectedColonBefore (line col b : Nat)
  | unexpectedWhenSeeking (line col b : Nat)
  | expectedCommaBeforeName (line col : Nat)
  | unexpectedInObject (line col b : Nat)
  | unexpectedZeroBefore (line col b : Nat)
  | expectedDigitBeforeDot (line col : Nat)
  | expectedDigitAfterDot (line col : Nat)
  | expectedDigitAfterE (line col : Nat)
  | unknownValue (line col : Nat)
  | allocFailure
  | overflowTooLong (line col : Nat)
  | fuelExhausted
  deriving DecidableEq, Repr

/-- Result of one iteration of the main `for (state.ptr = json ;; ++state.ptr)`
loop: continue (with the pointer for the next iteration already in place),
`break` out of the loop, or a jump to one of the error labels. -/
inductive StepOut
  | cont (st : PSt)
  | brk (st : PSt)
  | fail (st : PSt) (e : PErr)

/-- Control flow inside one iteration: either the iteration is over
(`out`) or control falls through to the next block of the body (`thru`). -/
inductive Flow
  | out (o : StepOut)
  | thru (st : PSt)

def contNext (st : PSt) : Flow := Flow.out (StepOut.cont { st with ptr := st.ptr + 1 })

def errAt (st : PSt) (e : PErr) : Flow := Flow.out (StepOut.fail st e)

def byteAtD (st : PSt) (i : Nat) : Nat := (readRaw st i).1

/-- Write one byte through the `string` pointer at `string[idx]`. -/
def writeTgt (st : PSt) (idx b : Nat) : PSt :=
  match st.strTgt with
  | StrTarget.null => markUB st
  | StrTarget.sbuf id =>
      match hGet st id with
      | some (HContent.strBuf cells) =>
          if idx < cells.length then hSet st id (HContent.strBuf (cells.set idx (some b)))
          else markOverrun st
      | _ => markUB st
  | StrTarget.nbuf id off =>
      match hGet st id with
      | some (HContent.objBuf entries names) =>
          if off + idx < names.length then
            hSet st id (HContent.objBuf entries (names.set (off + idx) (some b)))
          else markOverrun st
      | _ => markUB st

/-- `STRING_ADD(b)`: write only in the building pass, count in both. -/
def stringAdd (st : PSt) (b : Nat) : PSt :=
  let st := if st.firstPass then st else writeTgt st st.strLen b
  { st with strLen := st.strLen + 1 }

/-- Re-encode a decoded code point as UTF-8: counted in the first pass,
written in the second (json.cpp:347-384). -/
def utf8Emit (st : PSt) (uchar : Nat) : PSt :=
  if uchar ≤ 0x7F then stringAdd st uchar
  else if uchar ≤ 0x7FF then
    if st.firstPass then { st with strLen := st.strLen + 2 }
    else
      let st := writeTgt st st.strLen (0xC0 ||| (uchar >>> 6))
      let st := writeTgt st (st.strLen + 1) (0x80 ||| (uchar &&& 0x3F))
      { st with strLen := st.strLen + 2 }
  else if uchar ≤ 0xFFFF then
    if st.firstPass then { st with strLen := st.strLen + 3 }
    else
      let st := writeTgt st st.strLen (0xE0 ||| (uchar >>> 12))
      let st := writeTgt st (st.strLen + 1) (0x80 ||| ((uchar >>> 6) &&& 0x3F))
      let st := writeTgt st (st.strLen + 2) (0x80 ||| (uchar &&& 0x3F))
      { st with strLen := st.strLen + 3 }
  else
    if st.firstPass then { st with strLen := st.strLen + 4 }
    else
      let st := writeTgt st st.strLen (0xF0 ||| (uchar >>> 18))
      let st := writeTgt st (st.strLen + 1) (0x80 ||| ((uchar >>> 12) &&& 0x3F))
      let st := writeTgt st (st.strLen + 2) (0x80 ||| ((uchar >>> 6) &&& 0x3F))
      let st := writeTgt st (st.strLen + 3) (0x80 ||| (uchar &&& 0x3F))
      { st with strLen := st.strLen + 4 }

/-- The `case 'u'` escape decoder (json.cpp:311-384).  `st.ptr` is at the
`u`; the error message prints the escape character, so `b` is 117.  The
surrogate branch fires for *any* code point with `(uchar & 0xF800) == 0xD800`
(high or low surrogate) and combines the next `\uXXXX` escape without
checking its range. -/
def escapeU (st : PSt) : Flow :=
  let e := PErr.invalidCharValue st.curLine st.curCol 117
  if st.len - st.ptr ≤ 4 then errAt st e
  else
    let a1 := hexValue (byteAtD st (st.ptr + 1))
    let a2 := hexValue (byteAtD st (st.ptr + 2))
    let a3 := hexValue (byteAtD st (st.ptr + 3))
    let a4 := hexValue (byteAtD st (st.ptr + 4))
    if a1 = 255 then errAt { st with ptr := st.ptr + 1 } e
    else if a2 = 255 then errAt { st with ptr := st.ptr + 2 } e
    else if a3 = 255 then errAt { st with ptr := st.ptr + 3 } e
    else if a4 = 255 then errAt { st with ptr := st.ptr + 4 } e
    else
      let st := { st with ptr := st.ptr + 4 }
      let uchar := ((a1 <<< 4 ||| a2) <<< 8) ||| (a3 <<< 4 ||| a4)
      if (uchar &&& 0xF800) = 0xD800 then
        if st.len - st.ptr ≤ 6 then errAt st e
        else if byteAtD st (st.ptr + 1) ≠ 92 then errAt { st with ptr := st.ptr + 1 } e
        else if byteAtD st (st.ptr + 2) ≠ 117 then errAt { st with ptr := st.ptr + 2 } e
        else
          let c1 := hexValue (byteAtD st (st.ptr + 3))
          let c2 := hexValue (byteAtD st (st.ptr + 4))
          let c3 := hexValue (byteAtD st (st.ptr + 5))
          let c4 := hexValue (byteAtD st (st.ptr + 6))
          if c1 = 255 then errAt { st with ptr := st.ptr + 3 } e
          else if c2 = 255 then errAt { st with ptr := st.ptr + 4 } e
          else if c3 = 255 then errAt { st with ptr := st.ptr + 5 } e
          else if c4 = 255 then errAt { st with ptr := st.ptr + 6 } e
          else
            let uchar2 := ((c1 <<< 4 ||| c2) <<< 8) ||| (c3 <<< 4 ||| c4)
            let uchar := 0x010000 ||| ((uchar &&& 0x3FF) <<< 10) ||| (uchar2 &&& 0x3FF)
            let st := { st with ptr := st.ptr + 6 }
            contNext (utf8Emit st uchar)
      else contNext (utf8Emit st uchar)

/-- The `if (flags & flag_string)` block. -/
def stageString (stIn : PSt) (b : Nat) : Flow :=
  if ¬ hasF stIn.flags flagStr then Flow.thru stIn
  else if b = 0 then errAt stIn (PErr.unexpectedEofInString stIn.curLine stIn.curCol)
  else if stIn.strLen > uintMaxC then errAt stIn (PErr.overflowTooLong stIn.curLine stIn.curCol)
  else if hasF stIn.flags flagEscaped then
    let st := { stIn with flags := clearF stIn.flags flagEscaped }
    if b = 98 then contNext (stringAdd st 8)
    else if b = 102 then contNext (stringAdd st 12)
    else if b = 110 then contNext (stringAdd st 10)
    else if b = 114 then contNext (stringAdd st 13)
    else if b = 116 then contNext (stringAdd st 9)
    else if b = 117 then escapeU st
    else contNext (stringAdd st b)
  else if b = 92 then contNext { stIn with flags := setF stIn.flags flagEscaped }
  else if b = 34 then
    let st := if stIn.firstPass then stIn else writeTgt stIn stIn.strLen 0
    let st := { st with flags := clearF st.flags flagStr, strTgt := StrTarget.null }
    match st.top with
    | none => Flow.thru (markUB st)
    | some t =>
      match getNode st t with
      | none => Flow.thru (markUB st)
      | some tv =>
        match tv.type with
        | JType.jstring =>
            let st := setNode st t { tv with length := st.strLen }
            Flow.thru { st with flags := setF st.flags flagNext }
        | JType.jobject =>
            let stepAfter := fun (st : PSt) =>
              Flow.out (StepOut.cont
                { st with flags := setF st.flags (flagSeekValue ||| flagNeedColon),
                          ptr := st.ptr + 1 })
            if st.firstPass then
              stepAfter (setNode st t
                { tv with ptrField := PtrVal.counter (ptrAsCount tv.ptrField + st.strLen + 1) })
            else
              match tv.reserved with
              | Reserved.objMem bid off =>
                  let st :=
                    match hGet st bid with
                    | some (HContent.objBuf entries names) =>
                        if h : tv.length < entries.length then
                          let en := entries.get ⟨tv.length, h⟩
                          hSet st bid (HContent.objBuf
                            (entries.set tv.length
                              { en with nameOff := some off, name_length := st.strLen }) names)
                        else markOverrun st
                    | _ => markUB st
                  stepAfter (setNode st t
                    { tv with reserved := Reserved.objMem bid (off + st.strLen + 1) })
              | Reserved.next _ => stepAfter (markUB st)
        | _ => Flow.thru st
  else contNext (stringAdd stIn b)

/-- The `//` / `/* */` comment handling (active only with
`settings.allow_comments`). -/
def stageComment (st : PSt) (b : Nat) : Flow :=
  if ¬ st.allowComments then Flow.thru st
  else if hasF st.flags (flagLineComment ||| flagBlockComment) then
    if hasF st.flags flagLineComment then
      -- `--state.ptr` then the loop's `++state.ptr`: net position unchanged
      if b = 13 ∨ b = 10 ∨ b = 0 then
        Flow.out (StepOut.cont { st with flags := clearF st.flags flagLineComment })
      else contNext st
    else
      if b = 0 then errAt st (PErr.eofInBlockComment st.curLine st.curCol)
      else if b = 42 ∧ st.ptr + 1 < st.len ∧ byteAtD st (st.ptr + 1) = 47 then
        Flow.out (StepOut.cont { st with flags := clearF st.flags flagBlockComment, ptr := st.ptr + 2 })
      else contNext st
  else if b = 47 then
    let opener := fun (st : PSt) =>
      if st.ptr + 1 = st.len then errAt { st with ptr := st.ptr + 1 } (PErr.eofUnexpected st.curLine st.curCol)
      else
        let b2 := byteAtD st (st.ptr + 1)
        if b2 = 47 then
          Flow.out (StepOut.cont { st with flags := setF st.flags flagLineComment, ptr := st.ptr + 2 })
        else if b2 = 42 then
          Flow.out (StepOut.cont { st with flags := setF st.flags flagBlockComment, ptr := st.ptr + 2 })
        else errAt { st with ptr := st.ptr + 1 }
          (PErr.unexpectedInCommentOpen st.curLine st.curCol b2)
    if hasF st.flags (flagSeekValue ||| flagDone) then opener st
    else
      match st.top with
      | none => errAt (markUB st) (PErr.commentNotAllowedHere st.curLine st.curCol)
      | some t =>
        match getNode st t with
        | none => errAt (markUB st) (PErr.commentNotAllowedHere st.curLine st.curCol)
        | some tv =>
          if tv.type ≠ JType.jobject then errAt st (PErr.commentNotAllowedHere st.curLine st.curCol)
          else opener st
  else Flow.thru st

/-- The `if (flags & flag_done)` block. -/
def stageDone (st : PSt) (b : Nat) : Flow :=
  if ¬ hasF st.flags flagDone then Flow.thru st
  else if b = 0 then Flow.out (StepOut.brk st)
  else if b = 10 then
    Flow.out (StepOut.cont { st with curLine := st.curLine + 1, curCol := 0, ptr := st.ptr + 1 })
  else if b = 32 ∨ b = 9 ∨ b = 13 then contNext st
  else errAt st (PErr.trailingGarbage st.curLine st.curCol b)

/-- Match the tail of a literal keyword (`rue`, `alse`, `ull`), advancing
the pointer over each matched byte as the C `*(++state.ptr)` does. -/
def matchBytes : PSt → List Nat → PSt × Bool
  | st, [] => (st, true)
  | st, c :: rest =>
      let (b, oob) := readRaw st (st.ptr + 1)
      let st := if oob then markUB st else st
      let st := { st with ptr := st.ptr + 1 }
      if b = c then matchBytes st rest else (st, false)

def inNumSet (b : Nat) : Bool :=
  isdigit b || b = 43 || b = 45 || b = 101 || b = 69 || b = 46

/-- The second-pass `while (std::isdigit(b) || ...) ++state.ptr` skip loop,
entered with the byte at `p` already known to be in the accepted set. -/
def skipNumFrom (st : PSt) : Nat → Nat → Nat
  | 0, p => p
  | fuel + 1, p =>
      let q := p + 1
      if q = st.len then q
      else if inNumSet (byteAtD st q) then skipNumFrom st fuel q
      else q

end JsonCpp

namespace JsonCpp

/-- Apply the deferred `-` to the final magnitude (json.cpp:796-801). -/
def applyNeg (st : PSt) (t : Nat) : PSt :=
  if hasF st.flags flagNumNegative then
    match getNode st t with
    | some v =>
        if v.type = JType.jinteger then setNode st t { v with integer := i64wrap (-v.integer) }
        else setNode st t { v with dbl := rNeg v.dbl }
    | none => markUB st
  else st

/-- The commit section of the numeric state (json.cpp:759-804): fraction
combine, exponent entry, exponent application, deferred negation, then
`flag_next | flag_reproc`. -/
def numCommit (st0 : PSt) (b : Nat) (t : Nat) : Flow :=
  if ¬ hasF st0.flags flagNumE then
    match getNode st0 t with
    | none => Flow.thru (markUB st0)
    | some v =>
      if v.type = JType.jdouble ∧ st0.numDigits = 0 then
        errAt st0 (PErr.expectedDigitAfterDot st0.curLine st0.curCol)
      else
        let st := if v.type = JType.jdouble then
            setNode st0 t { v with dbl := rAdd v.dbl (rDiv (rOfInt st0.numFraction) (rPow10 st0.numDigits)) }
          else st0
        if b = 101 ∨ b = 69 then
          let st := { st with flags := clearF (setF st.flags flagNumE) flagNumZero, numDigits := 0 }
          let st :=
            match getNode st t with
            | some v2 =>
                if v2.type = JType.jinteger then
                  setNode st t { v2 with type := JType.jdouble, dbl := rOfInt v2.integer }
                else st
            | none => markUB st
          Flow.out (StepOut.cont { st with ptr := st.ptr + 1 })
        else
          let st := applyNeg st t
          Flow.thru { st with flags := setF st.flags (flagNext ||| flagReproc) }
  else
    if st0.numDigits = 0 then errAt st0 (PErr.expectedDigitAfterE st0.curLine st0.curCol)
    else
      let e : Int := if hasF st0.flags flagNumENegative then -st0.numE else st0.numE
      let st :=
        match getNode st0 t with
        | some v => setNode st0 t { v with dbl := rMul v.dbl (rZpow10 e) }
        | none => markUB st0
      let st := applyNeg st t
      Flow.thru { st with flags := setF st.flags (flagNext ||| flagReproc) }

/-- The `case json_integer: case json_double:` arm of the non-seeking
switch (json.cpp:707-804), entered only during the counting pass. -/
def numStage (st : PSt) (b : Nat) (t : Nat) (tv : NodeRec) : Flow :=
  if isdigit b then
    let st := { st with numDigits := st.numDigits + 1 }
    let d : Int := (b : Int) - 48
    if tv.type = JType.jinteger ∨ hasF st.flags flagNumE then
      if ¬ hasF st.flags flagNumE then
        if hasF st.flags flagNumZero then errAt st (PErr.unexpectedZeroBefore st.curLine st.curCol b)
        else
          let st := if st.numDigits = 1 ∧ b = 48 then { st with flags := setF st.flags flagNumZero } else st
          contNext (setNode st t { tv with integer := i64wrap (tv.integer * 10 + d) })
      else
        contNext { st with flags := setF st.flags flagNumEGotSign, numE := i64wrap (st.numE * 10 + d) }
    else
      contNext { st with numFraction := i64wrap (st.numFraction * 10 + d) }
  else if (b = 43 ∨ b = 45) ∧ hasF st.flags flagNumE ∧ ¬ hasF st.flags flagNumEGotSign then
    let st := { st with flags := setF st.flags flagNumEGotSign }
    let st := if b = 45 then { st with flags := setF st.flags flagNumENegative } else st
    contNext st
  else if ¬(b = 43 ∨ b = 45) ∧ b = 46 ∧ tv.type = JType.jinteger then
    if st.numDigits = 0 then errAt st (PErr.expectedDigitBeforeDot st.curLine st.curCol)
    else
      contNext { setNode st t { tv with type := JType.jdouble, dbl := rOfInt tv.integer } with
                 numDigits := 0 }
  else numCommit st b t

/-- The `if (flags & flag_seek_value)` switch (json.cpp:509-666). -/
def stageSeek (st : PSt) (b : Nat) : Flow :=
  if b = 10 then
    Flow.out (StepOut.cont { st with curLine := st.curLine + 1, curCol := 0, ptr := st.ptr + 1 })
  else if b = 32 ∨ b = 9 ∨ b = 13 then contNext st
  else if b = 93 then
    let bad := errAt st (PErr.unexpectedRBracket st.curLine st.curCol)
    match st.top with
    | none => bad
    | some t =>
      match getNode st t with
      | none => Flow.thru (markUB st)
      | some tv =>
        if tv.type = JType.jarray then
          Flow.thru { st with flags := setF (clearF st.flags (flagNeedComma ||| flagSeekValue)) flagNext }
        else bad
  else if hasF st.flags flagNeedComma then
    if b = 44 then Flow.out (StepOut.cont { st with flags := clearF st.flags flagNeedComma, ptr := st.ptr + 1 })
    else errAt st (PErr.expectedCommaBefore st.curLine st.curCol b)
  else if hasF st.flags flagNeedColon then
    if b = 58 then Flow.out (StepOut.cont { st with flags := clearF st.flags flagNeedColon, ptr := st.ptr + 1 })
    else errAt st (PErr.expectedColonBefore st.curLine st.curCol b)
  else
    let st := { st with flags := clearF st.flags flagSeekValue }
    if b = 123 then
      let (st, ok) := newValue st JType.jobject
      if ok then contNext st else Flow.out (StepOut.fail st PErr.allocFailure)
    else if b = 91 then
      let (st, ok) := newValue st JType.jarray
      if ok then contNext { st with flags := setF st.flags flagSeekValue }
      else Flow.out (StepOut.fail st PErr.allocFailure)
    else if b = 34 then
      let (st, ok) := newValue st JType.jstring
      if ¬ ok then Flow.out (StepOut.fail st PErr.allocFailure)
      else
        let tgt :=
          match st.top with
          | some t =>
            match getNode st t with
            | some tv =>
              match tv.ptrField with
              | PtrVal.alloc id => StrTarget.sbuf id
              | _ => StrTarget.null
            | none => StrTarget.null
          | none => StrTarget.null
        contNext { st with flags := setF st.flags flagStr, strTgt := tgt, strLen := 0 }
    else if b = 116 then
      if st.len - st.ptr < 3 then errAt st (PErr.unknownValue st.curLine st.curCol)
      else
        let (st, m) := matchBytes st [114, 117, 101]
        if ¬ m then errAt st (PErr.unknownValue st.curLine st.curCol)
        else
          let (st, ok) := newValue st JType.jboolean
          if ¬ ok then Flow.out (StepOut.fail st PErr.allocFailure)
          else
            let st :=
              match st.top with
              | some t =>
                match getNode st t with
                | some tv => setNode st t { tv with boolean := true }
                | none => markUB st
              | none => markUB st
            Flow.thru { st with flags := setF st.flags flagNext }
    else if b = 102 then
      if st.len - st.ptr < 4 then errAt st (PErr.unknownValue st.curLine st.curCol)
      else
        let (st, m) := matchBytes st [97, 108, 115, 101]
        if ¬ m then errAt st (PErr.unknownValue st.curLine st.curCol)
        else
          let (st, ok) := newValue st JType.jboolean
          if ¬ ok then Flow.out (StepOut.fail st PErr.allocFailure)
          else Flow.thru { st with flags := setF st.flags flagNext }
    else if b = 110 then
      if st.len - st.ptr < 3 then errAt st (PErr.unknownValue st.curLine st.curCol)
      else
        let (st, m) := matchBytes st [117, 108, 108]
        if ¬ m then errAt st (PErr.unknownValue st.curLine st.curCol)
        else
          let (st, ok) := newValue st JType.jnull
          if ¬ ok then Flow.out (StepOut.fail st PErr.allocFailure)
          else Flow.thru { st with flags := setF st.flags flagNext }
    else if isdigit b || b = 45 then
      let (st, ok) := newValue st JType.jinteger
      if ¬ ok then Flow.out (StepOut.fail st PErr.allocFailure)
      else if ¬ st.firstPass then
        let j := skipNumFrom st (st.len + 1) st.ptr
        Flow.thru { st with ptr := j, flags := setF st.flags (flagNext ||| flagReproc) }
      else
        let st := { st with
          flags := clearF st.flags
            (flagNumNegative ||| flagNumE ||| flagNumEGotSign ||| flagNumENegative ||| flagNumZero),
          numDigits := 0, numFraction := 0, numE := 0 }
        if b ≠ 45 then Flow.thru { st with flags := setF st.flags flagReproc }
        else contNext { st with flags := setF st.flags flagNumNegative }
    else errAt st (PErr.unexpectedWhenSeeking st.curLine st.curCol b)

/-- The non-seeking `switch (top->type)` (json.cpp:668-808). -/
def stageElse (st : PSt) (b : Nat) : Flow :=
  match st.top with
  | none => Flow.thru (markUB st)
  | some t =>
    match getNode st t with
    | none => Flow.thru (markUB st)
    | some tv =>
      match tv.type with
      | JType.jobject =>
          if b = 10 then
            Flow.out (StepOut.cont { st with curLine := st.curLine + 1, curCol := 0, ptr := st.ptr + 1 })
          else if b = 32 ∨ b = 9 ∨ b = 13 then contNext st
          else if b = 34 then
            if hasF st.flags flagNeedComma then
              errAt st (PErr.expectedCommaBeforeName st.curLine st.curCol)
            else
              let tgt :=
                match tv.reserved with
                | Reserved.objMem bid off => StrTarget.nbuf bid off
                | Reserved.next _ => StrTarget.null
              Flow.thru { st with flags := setF st.flags flagStr, strTgt := tgt, strLen := 0 }
          else if b = 125 then
            Flow.thru { st with flags := setF (clearF st.flags flagNeedComma) flagNext }
          else if b = 44 ∧ hasF st.flags flagNeedComma then
            Flow.thru { st with flags := clearF st.flags flagNeedComma }
          else errAt st (PErr.unexpectedInObject st.curLine st.curCol b)
      | JType.jinteger => numStage st b t tv
      | JType.jdouble => numStage st b t tv
      | _ => Flow.thru st

/-- The loop tail: `flag_reproc` rewind and the `flag_next` climb that links
a finished value into its parent and bumps the parent's fill cursor
(json.cpp:811-852). -/
def postlude (st0 : PSt) : StepOut :=
  let pr := hasF st0.flags flagReproc
  let st := if pr then { st0 with flags := clearF st0.flags flagReproc } else st0
  let base := if pr then st0.ptr else st0.ptr + 1
  if ¬ hasF st.flags flagNext then StepOut.cont { st with ptr := base }
  else
    let st := { st with flags := setF (clearF st.flags flagNext) flagNeedComma }
    match st.top with
    | none => StepOut.cont { markUB st with ptr := base }
    | some t =>
      match getNode st t with
      | none => StepOut.cont { markUB st with ptr := base }
      | some tv =>
        match tv.parent with
        | none => StepOut.cont { st with flags := setF st.flags flagDone, ptr := base }
        | some p =>
          match getNode st p with
          | none => StepOut.cont { markUB st with ptr := base }
          | some pv =>
            let st := if pv.type = JType.jarray then { st with flags := setF st.flags flagSeekValue } else st
            let st :=
              if st.firstPass then st
              else
                match pv.type with
                | JType.jobject =>
                    match pv.ptrField with
                    | PtrVal.alloc bid =>
                        match hGet st bid with
                        | some (HContent.objBuf entries names) =>
                            if h : pv.length < entries.length then
                              let en := entries.get ⟨pv.length, h⟩
                              hSet st bid (HContent.objBuf
                                (entries.set pv.length { en with value := some t }) names)
                            else markOverrun st
                        | _ => markUB st
                    | _ => markUB st
                | JType.jarray =>
                    match pv.ptrField with
                    | PtrVal.alloc bid =>
                        match hGet st bid with
                        | some (HContent.arrBuf slots) =>
                            if pv.length < slots.length then
                              hSet st bid (HContent.arrBuf (slots.set pv.length (some t)))
                            else markOverrun st
                        | _ => markUB st
                    | _ => markUB st
                | _ => st
            let newLen := pv.length + 1
            let st := setNode st p { pv with length := newLen }
            if newLen > uintMaxC then StepOut.fail st (PErr.overflowTooLong st.curLine st.curCol)
            else StepOut.cont { st with top := some p, ptr := base }

/-- One full iteration of the main loop. -/
def stepFn (st : PSt) : StepOut :=
  let b := headByte st
  match stageString st b with
  | Flow.out o => o
  | Flow.thru st1 =>
    match stageComment st1 b with
    | Flow.out o => o
    | Flow.thru st2 =>
      match stageDone st2 b with
      | Flow.out o => o
      | Flow.thru st3 =>
        match (if hasF st3.flags flagSeekValue then stageSeek st3 b else stageElse st3 b) with
        | Flow.out o => o
        | Flow.thru st4 => postlude st4

inductive LoopEnd
  | ok (st : PSt)
  | failed (st : PSt) (e : PErr)

def runLoop : Nat → PSt → LoopEnd
  | 0, st => LoopEnd.failed st PErr.fuelExhausted
  | fuel + 1, st =>
      match stepFn st with
      | StepOut.cont st' => runLoop fuel st'
      | StepOut.brk st' => LoopEnd.ok st'
      | StepOut.fail st' e => LoopEnd.failed st' e

end JsonCpp

namespace JsonCpp

/-! ### Teardown -/

/-- Rollback walk of the `_reserved.next_alloc` chain
(`while (alloc) ... mem_free(alloc) ...`, json.cpp:883-887). -/
def chainFree : Nat → PSt → Option Nat → PSt
  | 0, st, v => (match v with | none => st | some _ => markUB st)
  | _, st, none => st
  | fuel + 1, st, some i =>
      match getNode st i with
      | none => markUB st
      | some v =>
        match v.reserved with
        | Reserved.next n => chainFree fuel (memFree st (some i)) n
        | Reserved.objMem _ _ => markUB (memFree st (some i))

def nodeLengthAt (st : PSt) (i : Nat) : Nat :=
  match getNode st i with
  | some v => v.length
  | none => 0

/-- Fuel bound for `value_free`: every iteration either frees one
allocation or decrements one node's fill count. -/
def vfFuel (st : PSt) : Nat :=
  4 + (List.range st.nextId).foldl (fun acc i => acc + 4 + 2 * nodeLengthAt st i) 0

/-- The `while (value)` loop of `json::value_free` (json.cpp:908-939):
descend into the last remaining child (decrementing the fill count), or
release the node's payload, then the node, and climb to its parent. -/
def valueFreeLoop : Nat → PSt → Option Nat → PSt
  | 0, st, v => (match v with | none => st | some _ => markUB st)
  | _, st, none => st
  | fuel + 1, st, some i =>
      match getNode st i with
      | none => markUB st
      | some v =>
        match v.type with
        | JType.jarray =>
            if v.length = 0 then
              let st := memFreePtr st v.ptrField
              valueFreeLoop fuel (memFree st (some i)) v.parent
            else
              match v.ptrField with
              | PtrVal.alloc bid =>
                  match hGet st bid with
                  | some (HContent.arrBuf slots) =>
                      let idx := v.length - 1
                      let st := setNode st i { v with length := idx }
                      match (if h : idx < slots.length then slots.get ⟨idx, h⟩ else none) with
                      | some c => valueFreeLoop fuel st (some c)
                      | none => markUB st
                  | _ => markUB st
              | _ => markUB st
        | JType.jobject =>
            if v.length = 0 then
              let st := memFreePtr st v.ptrField
              valueFreeLoop fuel (memFree st (some i)) v.parent
            else
              match v.ptrField with
              | PtrVal.alloc bid =>
                  match hGet st bid with
                  | some (HContent.objBuf entries _) =>
                      let idx := v.length - 1
                      let st := setNode st i { v with length := idx }
                      match (if h : idx < entries.length then (entries.get ⟨idx, h⟩).value else none) with
                      | some c => valueFreeLoop fuel st (some c)
                      | none => markUB st
                  | _ => markUB st
              | _ => markUB st
        | JType.jstring =>
            let st := memFreePtr st v.ptrField
            valueFreeLoop fuel (memFree st (some i)) v.parent
        | _ => valueFreeLoop fuel (memFree st (some i)) v.parent

/-- `json::value_free(settings, val)`: immediate return on a null tree,
else null the root's parent and run the release loop. -/
def valueFreeEx (st : PSt) (v : Option Nat) : PSt :=
  match v with
  | none => st
  | some r =>
      let st :=
        match getNode st r with
        | some rv => setNode st r { rv with parent := none }
        | none => markUB st
      valueFreeLoop (vfFuel st) st (some r)

/-! ### Driver -/

def hasBOM (bytes : List Nat) : Bool :=
  match bytes with
  | a :: b :: c :: _ => a = 0xEF && b = 0xBB && c = 0xBF
  | _ => false

/-- The BOM skip at json.cpp:252-257 (at most one 3-byte BOM). -/
def stripBOM (bytes : List Nat) : List Nat :=
  if hasBOM bytes then bytes.drop 3 else bytes

def initSt (s : JSettings) (bytes : List Nat) : PSt :=
  { input := bytes, len := bytes.length,
    maxMemory := s.max_memory, allowComments := s.allow_comments,
    valueExtra := s.value_extra, allocOk := s.allocOk,
    usedMemory := 0, nextId := 0, allocCalls := 0,
    heap := fun _ => HSlot.unalloc, freeCalls := 0,
    firstPass := true, ptr := 0, curLine := 1, curCol := 0,
    flags := flagSeekValue, top := none, root := none, allocHead := none,
    strTgt := StrTarget.null, strLen := 0, numDigits := 0, numE := 0,
    numFraction := 0, overrun := false, ubFlag := false }

/-- Per-pass reset of the loop-local variables (json.cpp:278-284); note
`cur_col` is *not* reset (and in fact is never advanced anywhere). -/
def passInit (st : PSt) : PSt :=
  { st with ptr := 0, curLine := 1, flags := flagSeekValue, top := none, root := none,
            strTgt := StrTarget.null, strLen := 0, numDigits := 0, numE := 0,
            numFraction := 0 }

def isLive (s : HSlot) : Bool :=
  match s with | HSlot.live _ _ => true | _ => false

/-- Number of allocations granted and not yet released. -/
def liveCount (st : PSt) : Nat :=
  (List.range st.nextId).countP (fun i => isLive (st.heap i))

/-- Bytes granted and not yet released (a counting allocator's balance). -/
def liveBytes (st : PSt) : Nat :=
  (List.range st.nextId).foldl
    (fun acc i => acc + (match st.heap i with | HSlot.live sz _ => sz | _ => 0)) 0

/-! ### Result extraction -/

/-- Abstract JSON tree read back out of the heap. -/
inductive JValue
  | nullv
  | boolv (b : Bool)
  | intv (i : Int)
  | dblv (q : Rat)
  | strv (bytes : List Nat)
  | arrv (xs : List JValue)
  | objv (mems : List (List Nat × JValue))
  deriving Repr

def readCells (cells : List (Option Nat)) (off n : Nat) : Option (List Nat) :=
  if off + n ≤ cells.length then ((cells.drop off).take n).mapM (fun c => c) else none

def extractV : Nat → PSt → Nat → Option JValue
  | 0, _, _ => none
  | fuel + 1, st, i =>
    match getNode st i with
    | none => none
    | some v =>
      match v.type with
      | JType.jnull => some JValue.nullv
      | JType.jboolean => some (JValue.boolv v.boolean)
      | JType.jinteger => some (JValue.intv v.integer)
      | JType.jdouble => some (JValue.dblv v.dbl)
      | JType.jstring =>
          match v.ptrField with
          | PtrVal.alloc bid =>
              match hGet st bid with
              | some (HContent.strBuf cells) =>
                  match readCells cells 0 v.length with
                  | some bs => some (JValue.strv bs)
                  | none => none
              | _ => none
          | _ => none
      | JType.jarray =>
          if v.length = 0 then some (JValue.arrv [])
          else
            match v.ptrField with
            | PtrVal.alloc bid =>
                match hGet st bid with
                | some (HContent.arrBuf slots) =>
                    if v.length ≤ slots.length then
                      match (slots.take v.length).mapM (fun oc => oc.bind (extractV fuel st)) with
                      | some xs => some (JValue.arrv xs)
                      | none => none
                    else none
                | _ => none
            | _ => none
      | JType.jobject =>
          if v.length = 0 then some (JValue.objv [])
          else
            match v.ptrField with
            | PtrVal.alloc bid =>
                match hGet st bid with
                | some (HContent.objBuf entries names) =>
                    if v.length ≤ entries.length then
                      match (entries.take v.length).mapM (fun en =>
                        match en.nameOff, en.value with
                        | some off, some c =>
                            match readCells names off en.name_length, extractV fuel st c with
                            | some nm, some cv => some ((nm, cv) : List Nat × JValue)
                            | _, _ => none
                        | _, _ => none) with
                      | some ms => some (JValue.objv ms)
                      | none => none
                    else none
                | _ => none
            | _ => none
      | JType.jnone => none

def allSomeN (l : List (Option Nat)) : Bool := l.all (fun c => c.isSome)

/-- Exact-fill check for one node: the building pass filled its payload to
precisely the capacity the counting pass sized (string terminator written,
every array slot and object entry populated, the whole name region written
and the name cursor ending at its end). -/
def nodeFilled (st : PSt) (i : Nat) : Bool :=
  match hGet st i with
  | some (HContent.node v) =>
    (match v.type with
     | JType.jstring =>
        (match v.ptrField with
         | PtrVal.alloc bid =>
            (match hGet st bid with
             | some (HContent.strBuf cells) =>
                cells.length == v.length + 1 && allSomeN cells
             | _ => false)
         | _ => false)
     | JType.jarray =>
        (match v.length, v.ptrField with
         | 0, PtrVal.null => true
         | _ + 1, PtrVal.alloc bid =>
            (match hGet st bid with
             | some (HContent.arrBuf slots) => slots.length == v.length && allSomeN slots
             | _ => false)
         | _, _ => false)
     | JType.jobject =>
        (match v.length, v.ptrField with
         | 0, PtrVal.null => true
         | _ + 1, PtrVal.alloc bid =>
            (match hGet st bid with
             | some (HContent.objBuf entries names) =>
                entries.length == v.length
                  && entries.all (fun en => en.nameOff.isSome && en.value.isSome)
                  && allSomeN names
                  && (match v.reserved with
                      | Reserved.objMem bid2 off => bid2 == bid && off == names.length
                      | _ => false)
             | _ => false)
         | _, _ => false)
     | _ => true)
  | _ => true

def exactFill (st : PSt) : Bool :=
  (List.range st.nextId).all (fun i => nodeFilled st i)

/-- Caller-observable outcome of one `json::parse` call, together with the
allocator balance and the UB/overrun instrumentation. -/
structure ParseOut where
  tree : Option JValue
  err : Option PErr
  liveCount : Nat
  liveBytes : Nat
  freeCalls : Nat
  overrun : Bool
  ub : Bool
  filled : Bool
  deriving Repr

def loopFuel (n : Nat) : Nat := 8 * n + 64

/-- Observable outcome assembled on the `e_failed` paths. -/
def mkFailOut (st : PSt) (e : PErr) : ParseOut :=
  ⟨none, some e, liveCount st, liveBytes st, st.freeCalls, st.overrun, st.ubFlag, false⟩

/-- Observable outcome assembled on the success path. -/
def mkOkOut (st : PSt) : ParseOut :=
  ⟨(match st.root with
    | some r => extractV (st.nextId + 1) st r
    | none => none),
   none, liveCount st, liveBytes st, st.freeCalls, st.overrun, st.ubFlag, exactFill st⟩

/-- Both passes of `json::parse` after the BOM skip: the counting pass from
the initial state; on success, the building pass from the re-initialised
state with the rollback chain head at the first pass's root; on failure the
rollback walk (and, in the building pass, `json::value_free` on the partial
tree) before returning no tree. -/
def parseCore (s : JSettings) (bytes : List Nat) : ParseOut :=
  match runLoop (loopFuel bytes.length) (initSt s bytes) with
  | LoopEnd.failed st e => mkFailOut (chainFree (st.nextId + 1) st st.root) e
  | LoopEnd.ok st1 =>
      match runLoop (loopFuel bytes.length)
          (passInit { st1 with firstPass := false, allocHead := st1.root }) with
      | LoopEnd.failed st e =>
          mkFailOut (valueFreeEx (chainFree (st.nextId + 1) st st.allocHead) st.root) e
      | LoopEnd.ok st => mkOkOut st

/-- `json::parse(settings, json, length, error_buf)`. -/
def parseEx (s : JSettings) (bytes0 : List Nat) : ParseOut :=
  parseCore s (stripBOM bytes0)

/-- `json::parse(json, length)` — default settings. -/
def parseDef (bytes : List Nat) : ParseOut := parseEx defaultSettings bytes

def strBytes (s : String) : List Nat := s.toList.map Char.toNat

end JsonCpp

namespace JsonCpp

/-! ### Claim theorems -/

/-- C3: numeric literals parse per the spec's examples: the input 0 yields
integer 0; -0 yields integer 0 with the deferred negation applied; 0.0
yields a double value; 1e2 and 1E2 both yield the double 100.0; and 01 (a
literal 0 followed immediately by another digit) is rejected as a syntax
error. -/
theorem claim3_numeric_literals :
    (parseDef (strBytes "0")).tree = some (JValue.intv 0) ∧
    (parseDef (strBytes "-0")).tree = some (JValue.intv 0) ∧
    (parseDef (strBytes "0.0")).tree = some (JValue.dblv 0) ∧
    (parseDef (strBytes "1e2")).tree = some (JValue.dblv 100) ∧
    (parseDef (strBytes "1E2")).tree = some (JValue.dblv 100) ∧
    (parseDef (strBytes "01")).tree = none ∧
    (parseDef (strBytes "01")).err = some (PErr.unexpectedZeroBefore 1 0 49) :=
  ⟨rfl, rfl, rfl, rfl, rfl, rfl, rfl⟩

/-- C4 counterexample: the claim says a high surrogate not followed by an
escape in the LOW-surrogate range is rejected, but the code only checks
`(uchar & 0xF800) == 0xD800` and the shape of the next escape: the input
consisting of the quoted escapes uD800 then u0041 parses successfully (to
the UTF-8 bytes of the blindly combined code point U+10041) instead of
being rejected. -/
theorem claim4_counterexample :
    (parseDef (strBytes "\"\\uD800\\u0041\"")).err = none ∧
    (parseDef (strBytes "\"\\uD800\\u0041\"")).tree
      = some (JValue.strv [0xF0, 0x90, 0x81, 0x81]) :=
  ⟨rfl, rfl⟩

/-- C4 amended: the escape u0041 decodes to the single byte A; the pair
uD83D uDE00 decodes to the 4-byte UTF-8 encoding of U+1F600; an escape
whose code point has the surrogate bit pattern (high OR low) must be
followed immediately by a syntactically valid uXXXX escape — otherwise a
syntax error — and the two escapes are combined by the pair algorithm using
the low 10 bits of each, without checking that the first is a high and the
second a low surrogate. -/
theorem claim4_unicode_amended :
    (parseDef (strBytes "\"\\u0041\"")).tree = some (JValue.strv [65]) ∧
    (parseDef (strBytes "\"\\uD83D\\uDE00\"")).tree
      = some (JValue.strv [240, 159, 152, 128]) ∧
    (parseDef (strBytes "\"\\uD800\"")).tree = none ∧
    (parseDef (strBytes "\"\\uD800\"")).err = some (PErr.invalidCharValue 1 0 117) ∧
    (parseDef (strBytes "\"\\uDC00\"")).tree = none ∧
    (parseDef (strBytes "\"\\uDC00\\uDC00\"")).tree
      = some (JValue.strv [240, 144, 128, 128]) ∧
    (parseDef (strBytes "\"\\uD800\\u0041\"")).tree
      = some (JValue.strv [240, 144, 129, 129]) :=
  ⟨rfl, rfl, rfl, rfl, rfl, rfl, rfl⟩

/-- C5 counterexample: parsing the object-with-missing-value input (open
brace, quoted a, colon, close brace) fails with its diagnostic carrying
line 1 and column 0 — but the close brace sits at 1-based column 6, so the
reported position is not the column at which the offending byte occurs. -/
theorem claim5_counterexample :
    (parseDef (strBytes "\x7b\"a\":\x7d")).err
      = some (PErr.unexpectedWhenSeeking 1 0 125) ∧
    (0 : Nat) ≠ 6 :=
  ⟨rfl, by decide⟩

/-- C5 amended: syntax-error messages carry the 1-based line of the
offending byte and a column counter that is reset at newlines but never
advanced, so the reported column is always 0; the missing-value input is
reported at 1:0 (and at 2:0 when a newline precedes the offending close
brace); the allocation-failure message carries no position at all. -/
theorem claim5_position_amended :
    (parseDef (strBytes "\x7b\"a\":\x7d")).err
      = some (PErr.unexpectedWhenSeeking 1 0 125) ∧
    (parseDef (strBytes "\x7b\n\"a\":\x7d")).err
      = some (PErr.unexpectedWhenSeeking 2 0 125) ∧
    (parseEx ⟨0, false, 0, fun _ => false⟩ (strBytes "1")).err = some PErr.allocFailure :=
  ⟨rfl, rfl, rfl⟩

/-- C7: object member keys are not deduplicated, merged or reordered: the
object with members a:1 and a:2 parses to an object of length 2 whose
entries appear as distinct entries in source order, and likewise for the
object with members a:1, b:2, a:3. -/
theorem claim7_duplicate_keys :
    (parseDef (strBytes "\x7b\"a\":1,\"a\":2\x7d")).tree
      = some (JValue.objv [([97], JValue.intv 1), ([97], JValue.intv 2)]) ∧
    (parseDef (strBytes "\x7b\"a\":1,\"b\":2,\"a\":3\x7d")).tree
      = some (JValue.objv [([97], JValue.intv 1), ([98], JValue.intv 2),
                           ([97], JValue.intv 3)]) :=
  ⟨rfl, rfl⟩

/-- C2: evaluating the parser at the failing input.  Parsing the array of
the strings a and b with an allocator that refuses exactly one request:
refusing any counting-pass request (the three node shells, calls 0-2)
rolls back cleanly to a zero balance, but refusing any building-pass
payload request leaks: the just-popped node shell is off the rollback
chain yet not linked into the tree, so neither the chain walk nor
json::value_free reaches it.  Refusing call 5 (the second string payload)
leaves one 8-byte allocation live; call 4 (the first string payload)
likewise; call 3 (the array's child buffer) leaves the root array with a
nonzero counted length but a null child-buffer pointer, which value_free
then dereferences — undefined behaviour — and the root shell is never
freed.  In every building-pass case parse returns no tree but a counting
allocator does not return to zero, contradicting the release-everything
contract. -/
theorem claim2_code_bug_eval :
    parseEx ⟨0, false, 0, fun k => k ≠ 5⟩ (strBytes "[\"a\",\"b\"]")
      = ⟨none, some PErr.allocFailure, 1, 8, 4, false, false, false⟩ ∧
    parseEx ⟨0, false, 0, fun k => k ≠ 4⟩ (strBytes "[\"a\",\"b\"]")
      = ⟨none, some PErr.allocFailure, 1, 8, 3, false, false, false⟩ ∧
    parseEx ⟨0, false, 0, fun k => k ≠ 3⟩ (strBytes "[\"a\",\"b\"]")
      = ⟨none, some PErr.allocFailure, 1, 8, 2, false, true, false⟩ ∧
    parseEx ⟨0, false, 0, fun k => k ≠ 0⟩ (strBytes "[\"a\",\"b\"]")
      = ⟨none, some PErr.allocFailure, 0, 0, 0, false, false, false⟩ ∧
    parseEx ⟨0, false, 0, fun k => k ≠ 1⟩ (strBytes "[\"a\",\"b\"]")
      = ⟨none, some PErr.allocFailure, 0, 0, 1, false, false, false⟩ ∧
    parseEx ⟨0, false, 0, fun k => k ≠ 2⟩ (strBytes "[\"a\",\"b\"]")
      = ⟨none, some PErr.allocFailure, 0, 0, 2, false, false, false⟩ :=
  ⟨rfl, rfl, rfl, rfl, rfl, rfl⟩

end JsonCpp

namespace JsonCpp

/-- C10: calling value_free (either overload — the state carries whatever
free capability the settings supplied) on a null tree pointer is a no-op:
it returns with the heap untouched and without a single invocation of the
free capability. -/
theorem claim10_value_free_null_noop (st : PSt) :
    valueFreeEx st none = st ∧ (valueFreeEx st none).freeCalls = st.freeCalls ∧
    (valueFreeEx st none).heap = st.heap :=
  ⟨rfl, rfl, rfl⟩

/-- C8 amended: parse strips at most one leading byte-order mark: for any
buffer whose remainder does not itself begin with the mark, prefixing the
3-byte mark leaves the parse result (tree, failure, allocator balance and
all) unchanged, and a buffer not beginning with the mark has no bytes
skipped at all. -/
theorem claim8_bom_amended (s : JSettings) (bytes : List Nat) (h : hasBOM bytes = false) :
    parseEx s ([0xEF, 0xBB, 0xBF] ++ bytes) = parseEx s bytes ∧ stripBOM bytes = bytes := by
  have h1 : stripBOM ([0xEF, 0xBB, 0xBF] ++ bytes) = bytes := by
    simp [stripBOM, hasBOM]
  have h2 : stripBOM bytes = bytes := by
    simp [stripBOM, h]
  refine ⟨?_, h2⟩
  unfold parseEx
  rw [h1, h2]

/-- C8 witness: the amended statement applied to the one-byte buffer 1. -/
theorem claim8_bom_amended_witness :
    hasBOM [49] = false ∧
    (parseEx defaultSettings ([0xEF, 0xBB, 0xBF] ++ [49]) = parseEx defaultSettings [49] ∧
     stripBOM [49] = [49]) :=
  ⟨rfl, claim8_bom_amended defaultSettings [49] rfl⟩

/-- C8 counterexample: the buffer consisting of two byte-order marks and
the digit 1 begins with the mark and has length at least 3, yet parsing it
fails while parsing the same buffer with its 3 leading bytes removed
succeeds — the claim's equivalence is false because only one mark is ever
skipped. -/
theorem claim8_counterexample :
    (parseDef ([0xEF, 0xBB, 0xBF] ++ [0xEF, 0xBB, 0xBF] ++ [49])).tree = none ∧
    (parseDef (([0xEF, 0xBB, 0xBF] ++ [0xEF, 0xBB, 0xBF] ++ [49]).drop 3)).tree
      = some (JValue.intv 1) ∧
    parseDef ([0xEF, 0xBB, 0xBF] ++ [0xEF, 0xBB, 0xBF] ++ [49])
      ≠ parseDef (([0xEF, 0xBB, 0xBF] ++ [0xEF, 0xBB, 0xBF] ++ [49]).drop 3) := by
  have hA : (parseDef ([0xEF, 0xBB, 0xBF] ++ [0xEF, 0xBB, 0xBF] ++ [49])).tree = none := rfl
  have hB : (parseDef (([0xEF, 0xBB, 0xBF] ++ [0xEF, 0xBB, 0xBF] ++ [49]).drop 3)).tree
      = some (JValue.intv 1) := rfl
  refine ⟨hA, hB, ?_⟩
  intro he
  rw [he, hB] at hA
  exact Option.noConfusion hA

/-- C6 amended: every allocation request first checks the overflow guard
(the running counter is 8 bytes below the 64-bit maximum at most) and, when
a ceiling is configured, increments the running counter and checks it
against the ceiling; a request failing either check returns failure with
the underlying allocate capability never invoked.  The running counter is
advanced by the request size exactly when a ceiling is configured — with no
ceiling the counter is never advanced, so it does not account for granted
bytes in that configuration. -/
theorem claim6_alloc_amended (st : PSt) (size : Nat) (content : HContent) :
    (usub64 ulongMaxC st.usedMemory < size → jsonAlloc st size content = (st, none)) ∧
    (¬ usub64 ulongMaxC st.usedMemory < size → st.maxMemory ≠ 0 →
       st.maxMemory < (st.usedMemory + size) % 2 ^ 64 →
       jsonAlloc st size content
         = ({ st with usedMemory := (st.usedMemory + size) % 2 ^ 64 }, none)) ∧
    (st.maxMemory = 0 → ((jsonAlloc st size content).1).usedMemory = st.usedMemory) ∧
    (¬ usub64 ulongMaxC st.usedMemory < size → st.maxMemory ≠ 0 →
       ¬ st.maxMemory < (st.usedMemory + size) % 2 ^ 64 →
       ((jsonAlloc st size content).1).usedMemory = (st.usedMemory + size) % 2 ^ 64) := by
  unfold jsonAlloc
  refine ⟨fun h => by rw [if_pos h], fun h1 h2 h3 => ?_, fun h => ?_, fun h1 h2 h3 => ?_⟩
  · rw [if_neg h1]
    simp only [if_pos h2]
    rw [if_pos ⟨h2, h3⟩]
  · by_cases h1 : usub64 ulongMaxC st.usedMemory < size
    · rw [if_pos h1]
    · rw [if_neg h1]
      have h2 : ¬ st.maxMemory ≠ 0 := by simp [h]
      simp only [if_neg h2]
      have h3 : ¬ (st.maxMemory ≠ 0 ∧ st.maxMemory < st.usedMemory) := fun hc => h2 hc.1
      rw [if_neg h3]
      by_cases h4 : st.allocOk st.allocCalls
      · rw [if_pos h4]
      · rw [if_neg h4]
  · rw [if_neg h1]
    simp only [if_pos h2]
    have h5 : ¬ (st.maxMemory ≠ 0 ∧ st.maxMemory <
        ({ st with usedMemory := (st.usedMemory + size) % 2 ^ 64 } : PSt).usedMemory) :=
      fun hc => h3 hc.2
    rw [if_neg h5]
    by_cases h4 : st.allocOk st.allocCalls
    · rw [if_pos h4]
    · rw [if_neg h4]

/-- C6 witness: with a 5-byte ceiling, an 8-byte request passes the
overflow guard, advances the counter to 8, fails the ceiling check and is
refused with the capability never invoked. -/
theorem claim6_alloc_amended_witness :
    jsonAlloc (initSt ⟨5, false, 0, fun _ => true⟩ []) 8 (HContent.node zeroNode)
      = ({ initSt ⟨5, false, 0, fun _ => true⟩ [] with usedMemory := 8 }, none) :=
  (claim6_alloc_amended (initSt ⟨5, false, 0, fun _ => true⟩ []) 8
      (HContent.node zeroNode)).2.1 (by decide) (by decide) (by decide)

/-- C6 counterexample: with no ceiling configured (the default settings),
an 8-byte request is granted yet the running allocated-byte counter stays
at 0 — the counter does not account for every granted byte. -/
theorem claim6_counterexample :
    (jsonAlloc (initSt defaultSettings []) 8 (HContent.node zeroNode)).2 = some 0 ∧
    (jsonAlloc (initSt defaultSettings []) 8 (HContent.node zeroNode)).1.usedMemory = 0 :=
  ⟨rfl, rfl⟩

end JsonCpp

namespace JsonCpp

/-! ### The seek-state run over whitespace-only input

Auxiliary development: from the per-pass initial state, every whitespace
byte leaves the machine in the seeking state (advancing the pointer, and
the line counter at newlines), and the end-of-input sentinel byte then
takes the default seek arm to the unexpected-character error — so the empty
input and every whitespace-only input fail, under every settings value. -/

/-- The machine state after the counting pass has consumed `k` leading
whitespace bytes (current line `line`). -/
def wsSt (s : JSettings) (bytes : List Nat) (k line : Nat) : PSt :=
  { initSt s bytes with ptr := k, curLine := line }

theorem hasF_seek_str : hasF flagSeekValue flagStr = false := by decide

theorem hasF_seek_done : hasF flagSeekValue flagDone = false := by decide

theorem hasF_seek_comm : hasF flagSeekValue (flagLineComment ||| flagBlockComment) = false := by
  decide

theorem hasF_seek_needComma : hasF flagSeekValue flagNeedComma = false := by decide

theorem hasF_seek_needColon : hasF flagSeekValue flagNeedColon = false := by decide

theorem hasF_seek_seek : hasF flagSeekValue flagSeekValue = true := by decide

theorem clearF_seek : clearF flagSeekValue flagSeekValue = 0 := by decide

theorem stageString_ws (st : PSt) (b : Nat) (hf : st.flags = flagSeekValue) :
    stageString st b = Flow.thru st := by
  unfold stageString
  have h : ¬ hasF st.flags flagStr = true := by rw [hf, hasF_seek_str]; simp
  exact if_pos h

theorem stageDone_ws (st : PSt) (b : Nat) (hf : st.flags = flagSeekValue) :
    stageDone st b = Flow.thru st := by
  unfold stageDone
  have h : ¬ hasF st.flags flagDone = true := by rw [hf, hasF_seek_done]; simp
  exact if_pos h

theorem stageComment_ws (st : PSt) (b : Nat) (hf : st.flags = flagSeekValue) (hb : b ≠ 47) :
    stageComment st b = Flow.thru st := by
  unfold stageComment
  by_cases hc : st.allowComments
  · rw [if_neg (by simp [hc]), hf,
        if_neg (by rw [hasF_seek_comm]; simp), if_neg hb]
  · rw [if_pos (by simp [hc])]

theorem seek_branch (st : PSt) (b : Nat) (hf : st.flags = flagSeekValue) :
    (if hasF st.flags flagSeekValue = true then stageSeek st b else stageElse st b)
      = stageSeek st b := by
  rw [hf, hasF_seek_seek]
  exact if_pos rfl

theorem stageSeek_ws_end (st : PSt) (hf : st.flags = flagSeekValue) :
    stageSeek st 0
      = errAt { st with flags := 0 } (PErr.unexpectedWhenSeeking st.curLine st.curCol 0) := by
  unfold stageSeek
  rw [hf]
  rw [if_neg (by decide : ¬ ((0 : Nat) = 10))]
  rw [if_neg (by decide : ¬ ((0 : Nat) = 32 ∨ (0 : Nat) = 9 ∨ (0 : Nat) = 13))]
  rw [if_neg (by decide : ¬ ((0 : Nat) = 93))]
  rw [if_neg (show ¬ hasF flagSeekValue flagNeedComma = true by
        rw [hasF_seek_needComma]; exact Bool.false_ne_true)]
  rw [if_neg (show ¬ hasF flagSeekValue flagNeedColon = true by
        rw [hasF_seek_needColon]; exact Bool.false_ne_true)]
  rw [clearF_seek]
  rfl

theorem headByte_lt (st : PSt) (h1 : st.len = st.input.length) (h2 : st.ptr < st.input.length) :
    headByte st = st.input.get ⟨st.ptr, h2⟩ := by
  unfold headByte readRaw
  rw [if_neg (by rw [h1]; exact Nat.ne_of_lt h2), dif_pos h2]

theorem ws_step_core (st : PSt) (b : Nat) (hf : st.flags = flagSeekValue)
    (hb47 : b ≠ 47) (hhead : headByte st = b) :
    stepFn st = (match stageSeek st b with
                 | Flow.out o => o
                 | Flow.thru st4 => postlude st4) := by
  simp only [stepFn, hhead, stageString_ws st b hf, stageComment_ws st b hf hb47,
             stageDone_ws st b hf, seek_branch st b hf]

theorem ws_step_end (s : JSettings) (bytes : List Nat) (line : Nat) :
    stepFn (wsSt s bytes bytes.length line)
      = StepOut.fail { wsSt s bytes bytes.length line with flags := 0 }
          (PErr.unexpectedWhenSeeking line 0 0) := by
  have hf : (wsSt s bytes bytes.length line).flags = flagSeekValue := rfl
  have hhead : headByte (wsSt s bytes bytes.length line) = 0 := by
    unfold headByte
    exact if_pos rfl
  rw [ws_step_core _ 0 hf (by decide) hhead, stageSeek_ws_end _ hf]
  rfl

theorem ws_step_mid (s : JSettings) (bytes : List Nat) (k line : Nat)
    (hk : k < bytes.length) (hb : bytes.get ⟨k, hk⟩ = 32 ∨ bytes.get ⟨k, hk⟩ = 9 ∨
      bytes.get ⟨k, hk⟩ = 13 ∨ bytes.get ⟨k, hk⟩ = 10) :
    stepFn (wsSt s bytes k line)
      = StepOut.cont (wsSt s bytes (k + 1)
          (if bytes.get ⟨k, hk⟩ = 10 then line + 1 else line)) := by
  have hf : (wsSt s bytes k line).flags = flagSeekValue := rfl
  have hhead : headByte (wsSt s bytes k line) = bytes.get ⟨k, hk⟩ := headByte_lt _ rfl hk
  rcases hb with h | h | h | h <;> rw [h] at hhead ⊢
  · rw [ws_step_core _ 32 hf (by decide) hhead]; rfl
  · rw [ws_step_core _ 9 hf (by decide) hhead]; rfl
  · rw [ws_step_core _ 13 hf (by decide) hhead]; rfl
  · rw [ws_step_core _ 10 hf (by decide) hhead]; rfl

theorem ws_run (s : JSettings) (bytes : List Nat)
    (hws : ∀ b ∈ bytes, b = 32 ∨ b = 9 ∨ b = 13 ∨ b = 10) :
    ∀ fuel k line, bytes.length - k < fuel → k ≤ bytes.length →
      ∃ line', runLoop fuel (wsSt s bytes k line)
        = LoopEnd.failed { wsSt s bytes bytes.length line' with flags := 0 }
            (PErr.unexpectedWhenSeeking line' 0 0) := by
  intro fuel
  induction fuel with
  | zero => intro k line hfuel _; exact (Nat.not_lt_zero _ hfuel).elim
  | succ n ih =>
    intro k line hfuel hk
    rcases Nat.eq_or_lt_of_le hk with he | hlt
    · refine ⟨line, ?_⟩
      rw [show runLoop (n + 1) (wsSt s bytes k line)
            = (match stepFn (wsSt s bytes k line) with
               | StepOut.cont st' => runLoop n st'
               | StepOut.brk st' => LoopEnd.ok st'
               | StepOut.fail st' e => LoopEnd.failed st' e) from rfl]
      rw [he, ws_step_end]
    · have hb := hws (bytes.get ⟨k, hlt⟩) (List.get_mem bytes k hlt)
      obtain ⟨line', hrun⟩ :=
        ih (k + 1) (if bytes.get ⟨k, hlt⟩ = 10 then line + 1 else line) (by omega) hlt
      refine ⟨line', ?_⟩
      rw [show runLoop (n + 1) (wsSt s bytes k line)
            = (match stepFn (wsSt s bytes k line) with
               | StepOut.cont st' => runLoop n st'
               | StepOut.brk st' => LoopEnd.ok st'
               | StepOut.fail st' e => LoopEnd.failed st' e) from rfl]
      rw [ws_step_mid s bytes k line hlt hb]
      exact hrun

/-- Auxiliary result for C9: under every settings value, the empty input
and every input consisting only of whitespace bytes make both passes'
driver return failure with no tree, no error-free outcome, and nothing
left allocated. -/
theorem parse_whitespace_only_fails (s : JSettings) (bytes : List Nat)
    (hws : ∀ b ∈ bytes, b = 32 ∨ b = 9 ∨ b = 13 ∨ b = 10) :
    (parseEx s bytes).tree = none ∧ (parseEx s bytes).err.isSome = true ∧
    (parseEx s bytes).liveCount = 0 := by
  have hbom : hasBOM bytes = false := by
    cases bytes with
    | nil => rfl
    | cons a t =>
      cases t with
      | nil => rfl
      | cons b2 t2 =>
        cases t2 with
        | nil => rfl
        | cons c t3 =>
          have ha := hws a (by simp)
          rcases ha with h | h | h | h <;> subst h <;> rfl
  have hstrip : stripBOM bytes = bytes := by
    unfold stripBOM
    rw [hbom]
    rfl
  obtain ⟨line', hrun⟩ :=
    ws_run s bytes hws (loopFuel bytes.length) 0 1 (by unfold loopFuel; omega) (Nat.zero_le _)
  have hpe : parseEx s bytes = parseCore s bytes := by
    unfold parseEx
    rw [hstrip]
  have hinit : initSt s bytes = wsSt s bytes 0 1 := rfl
  rw [hpe]
  unfold parseCore
  rw [hinit, hrun]
  exact ⟨rfl, rfl, rfl⟩

/-- Auxiliary result for C9: the empty input specifically, under the
default-settings parse overload. -/
theorem parse_empty_fails :
    (parseDef []).tree = none ∧
    (parseDef []).err = some (PErr.unexpectedWhenSeeking 1 0 0) ∧
    (parseDef []).liveCount = 0 :=
  ⟨rfl, rfl, rfl⟩

end JsonCpp

namespace JsonCpp

set_option maxRecDepth 100000 in
/-- Two-pass agreement evidence (relating to C1, which is not settled in
general here): on a battery of accepted inputs covering strings with every
escape class and every UTF-8 length, surrogate pairs, all numeric shapes,
nested and empty containers, comments, quotas and per-node extra bytes,
the building pass succeeds, never writes past any payload buffer, and
leaves every payload filled to exactly the capacity the counting pass
computed (terminator in place, every array slot and object entry
populated, the packed name cursor ending at the end of its region). -/
theorem twoPass_agreement_examples :
    (fun o => (o.err.isNone, o.filled, o.overrun || o.ub))
        (parseDef (strBytes
          "\x7b\"a\":1,\"b\":[1,2,3],\"c\":\"x\\uD83D\\uDE00y\",\"d\":\x7b\x7d,\"e\":[[]],\"f\":null,\"g\":true,\"h\":-12.25e2\x7d"))
      = (true, true, false) ∧
    (fun o => (o.err.isNone, o.filled, o.overrun || o.ub))
        (parseDef (strBytes
          "[\"\\u007F\",\"\\u0080\",\"\\u07FF\",\"\\u0800\",\"\\uFFFF\",\"\\uD800\\uDC00\"]"))
      = (true, true, false) ∧
    (fun o => (o.err.isNone, o.filled, o.overrun || o.ub))
        (parseDef (strBytes "\"abc\\\"\\\\\\/\\b\\f\\n\\r\\t\""))
      = (true, true, false) ∧
    (fun o => (o.err.isNone, o.filled, o.overrun || o.ub))
        (parseEx ⟨0, true, 0, fun _ => true⟩ (strBytes
          "\x7b // c\n \"k\":[1, /* x */ \"vv\"] \x7d"))
      = (true, true, false) ∧
    (fun o => (o.err.isNone, o.filled, o.overrun || o.ub))
        (parseDef (strBytes "[0,-0,1.5,2e0,-3E-1,4.25e+2,false]"))
      = (true, true, false) ∧
    (fun o => (o.err.isNone, o.filled, o.overrun || o.ub))
        (parseEx ⟨1000, false, 4, fun _ => true⟩ (strBytes
          "\x7b\"aa\":[\x7b\"b\":\"cc\"\x7d]\x7d"))
      = (true, true, false) :=
  ⟨rfl, rfl, rfl, rfl, rfl, rfl⟩

end JsonCpp
